import Mathlib

/-!
# NeoXalle BLE master: connection lifecycle and heartbeat

A shallow embedding of `src/esp32_master_code.cpp`.  The sketch keeps three
pieces of mutable state (the globals `deviceConnected` and
`oldDeviceConnected`, and the function-local `static unsigned long lastSend`)
next to the value held by the single GATT characteristic.  Every callback and
every execution of `loop()` is a function from a state to the next state and
the list of calls it made into the platform, in program order.  A callback and
an execution of `loop()` are taken as indivisible with respect to each other.

`millis()` is a 32-bit counter: the clock is a natural number of milliseconds
since boot and a reading is that number modulo `2^32`.  `loop()` reads the
clock twice (lines 105 and 110), so it takes two clock values.
-/

namespace NeoXalle

/-! ## Data model -/

/-- Calls into the platform made by the sketch, in the order they are made. -/
inductive Effect where
  | serialPrint (text : List Char)
  | serialPrintln (text : List Char)
  | updatePeerMTU (mtu : Nat)
  | delay (ms : Nat)
  | startAdvertising
  | setValue (value : List Char)
  | notify (value : List Char)
  deriving DecidableEq

/-- The mutable state of the sketch: lines 12, 13 and 104, and the value stored
in `*pCharacteristic`. -/
structure State where
  deviceConnected : Bool
  oldDeviceConnected : Bool
  lastSend : Nat
  characteristic : List Char
  deriving DecidableEq

/-- The state at the end of `setup()`: both flags are `false` (lines 12-13),
`lastSend` has its static initialiser `0` and the characteristic has just been
created and holds no value. -/
def setup : State :=
  { deviceConnected := false, oldDeviceConnected := false, lastSend := 0,
    characteristic := [] }

/-! ## Platform primitives -/

/-- Number of values of an `unsigned long` on the ESP32 (32 bits). -/
def ULONG : Nat := 4294967296

/-- Reading of `millis()` when `clock` milliseconds have passed since boot. -/
def millis (clock : Nat) : Nat := clock % ULONG

/-- Subtraction of two `unsigned long` values: `a - b` modulo `2^32`. -/
def usub (a b : Nat) : Nat := (a % ULONG + ULONG - b % ULONG) % ULONG

/-- The characters a consumer of `value.c_str()` sees: a `const char*` ends at
the first NUL character. -/
def c_str (value : List Char) : List Char :=
  value.takeWhile (fun c => c != Char.ofNat 0)

/-- Line 106: `String msg = "Hello from NeoXalle Master"`. -/
def msg : List Char := "Hello from NeoXalle Master".toList

/-! ## Callbacks (lines 16-40) -/

/-- Lines 17-22, `ServerCallbacks::onConnect`. -/
def onConnect (s : State) : State × List Effect :=
  ({ s with deviceConnected := true },
   [Effect.serialPrintln "📱 App conectada!".toList, Effect.updatePeerMTU 512])

/-- Lines 24-27, `ServerCallbacks::onDisconnect`. -/
def onDisconnect (s : State) : State × List Effect :=
  ({ s with deviceConnected := false },
   [Effect.serialPrintln "📱 App desconectada".toList])

/-- Lines 32-39, `CharacteristicCallbacks::onWrite`: the callback reads the
value the stack has stored in the characteristic. -/
def onWrite (s : State) : State × List Effect :=
  if s.characteristic.length > 0 then
    (s, [Effect.serialPrint "📩 App -> Master: ".toList,
         Effect.serialPrintln (c_str s.characteristic)])
  else
    (s, [])

/-! ## `loop()` (lines 86-115) -/

/-- Guard of line 88. -/
def disconnectEdge (s : State) : Bool :=
  !s.deviceConnected && s.oldDeviceConnected

/-- Guard of line 97. -/
def connectEdge (s : State) : Bool :=
  s.deviceConnected && !s.oldDeviceConnected

/-- Body of the `if` of line 88 (lines 89-93). -/
def disconnectBranch (s : State) : State × List Effect :=
  ({ s with oldDeviceConnected := false },
   [Effect.serialPrintln "⚠️ Desconexión detectada, limpiando y reactivando...".toList,
    Effect.delay 500,
    Effect.startAdvertising,
    Effect.serialPrintln "🔄 Advertising reactivado - Listo para nueva conexión".toList])

/-- Body of the `if` of line 97 (lines 98-99). -/
def connectBranch (s : State) : State × List Effect :=
  ({ s with oldDeviceConnected := true },
   [Effect.serialPrintln "✅ Nueva conexión establecida con la app".toList])

/-- Lines 88-94: the first `if` of `loop()`. -/
def loopDisconnect (s : State) : State × List Effect :=
  if disconnectEdge s then disconnectBranch s else (s, [])

/-- Lines 97-100: the second `if` of `loop()`. -/
def loopConnect (s : State) : State × List Effect :=
  if connectEdge s then connectBranch s else (s, [])

/-- Guard of line 105, with `t1` the clock when `millis()` is called there. -/
def heartbeatDue (s : State) (t1 : Nat) : Bool :=
  decide (usub (millis t1) s.lastSend > 3000)

/-- Lines 106-110, with `t2` the clock when `millis()` is called on line 110.
`setValue` stores the C string, `notify` sends what the characteristic then
holds. -/
def heartbeatBranch (s : State) (t2 : Nat) : State × List Effect :=
  let s1 : State := { s with characteristic := c_str msg }
  ({ s1 with lastSend := millis t2 },
   [Effect.setValue (c_str msg),
    Effect.notify s1.characteristic,
    Effect.serialPrintln ("📤 Master -> App: ".toList ++ msg)])

/-- Lines 103-112: the third `if` of `loop()`. -/
def loopHeartbeat (s : State) (t1 t2 : Nat) : State × List Effect :=
  if s.deviceConnected then
    if heartbeatDue s t1 then heartbeatBranch s t2 else (s, [])
  else
    (s, [])

/-- One execution of `loop()`: the three `if` statements in sequence, then
`delay(50)`. -/
def loop (s : State) (t1 t2 : Nat) : State × List Effect :=
  let r1 := loopDisconnect s
  let r2 := loopConnect r1.1
  let r3 := loopHeartbeat r2.1 t1 t2
  (r3.1, r1.2 ++ r2.2 ++ r3.2 ++ [Effect.delay 50])

/-! ## Traces -/

/-- What can happen to the sketch: the stack delivers a callback, or `loop()`
runs once.  A `write` is the central writing `payload`: the stack stores it in
the characteristic and then calls `onWrite`. -/
inductive Event where
  | connect
  | disconnect
  | write (payload : List Char)
  | tick (t1 t2 : Nat)
  deriving DecidableEq

/-- Effect of one event on the state, with the calls it makes. -/
def step (s : State) : Event → State × List Effect
  | Event.connect => onConnect s
  | Event.disconnect => onDisconnect s
  | Event.write payload => onWrite { s with characteristic := payload }
  | Event.tick t1 t2 => loop s t1 t2

/-- State after a sequence of events. -/
def run (s : State) : List Event → State
  | [] => s
  | e :: es => run (step s e).1 es

/-- All calls made during a sequence of events, in order. -/
def effects (s : State) : List Event → List Effect
  | [] => []
  | e :: es => (step s e).2 ++ effects (step s e).1 es

/-- A heartbeat is emitted when the characteristic is set or notified. -/
def isHeartbeat : Effect → Bool
  | Effect.setValue _ => true
  | Effect.notify _ => true
  | _ => false

/-- Whether a list of calls contains a heartbeat emission. -/
def emitsHeartbeat (l : List Effect) : Bool := l.any isHeartbeat

/-- The clock values an event carries: the two readings of a tick. -/
def clockOf : Event → List Nat
  | Event.tick t1 t2 => [t1, t2]
  | _ => []

/-- Clock values along a trace, in the order the clock is read. -/
def readings : List Event → List Nat
  | [] => []
  | e :: es => clockOf e ++ readings es

/-- The heartbeat an event emits in state `s`, if any, as the pair of clock
values of the tick that emits it: the emission lies between the two. -/
def heartbeatOf (s : State) : Event → List (Nat × Nat)
  | Event.tick t1 t2 => if emitsHeartbeat (loop s t1 t2).2 then [(t1, t2)] else []
  | _ => []

/-- The heartbeats of a trace started in `s`, in order. -/
def heartbeats (s : State) : List Event → List (Nat × Nat)
  | [] => []
  | e :: es => heartbeatOf s e ++ heartbeats (step s e).1 es

/-- The two kinds of connection edge. -/
inductive Edge where
  | connected
  | disconnected
  deriving DecidableEq

/-- Whether an event is a tick of `loop()` that takes the branch of line 88. -/
def takesDisconnectEdge (s : State) : Event → Bool
  | Event.tick _ _ => disconnectEdge s
  | _ => false

/-- Whether an event is a tick of `loop()` that takes the branch of line 97;
its guard is evaluated after lines 88-94 have run. -/
def takesConnectEdge (s : State) : Event → Bool
  | Event.tick _ _ => connectEdge (loopDisconnect s).1
  | _ => false

/-- Edge actions an event performs in state `s`, in program order. -/
def edgeActionsOf (s : State) (e : Event) : List Edge :=
  (if takesDisconnectEdge s e then [Edge.disconnected] else []) ++
  (if takesConnectEdge s e then [Edge.connected] else [])

/-- Edge actions performed along a trace started in `s`. -/
def edgeActions (s : State) : List Event → List Edge
  | [] => []
  | e :: es => edgeActionsOf s e ++ edgeActions (step s e).1 es

/-- The physical change an event stands for: an `onConnect` delivered while no
connection is recorded is a became-connected event, an `onDisconnect` delivered
while one is recorded is a became-disconnected event. -/
def physicalOf (s : State) : Event → List Edge
  | Event.connect => if s.deviceConnected then [] else [Edge.connected]
  | Event.disconnect => if s.deviceConnected then [Edge.disconnected] else []
  | _ => []

/-- Physical connection changes along a trace started in `s`. -/
def physicalEvents (s : State) : List Event → List Edge
  | [] => []
  | e :: es => physicalOf s e ++ physicalEvents (step s e).1 es

/-- Whether an event is an execution of `loop()`. -/
def isTick : Event → Bool
  | Event.tick _ _ => true
  | _ => false

/-- Every physical connection change of the trace is followed by a tick before
the next physical change and before the trace ends.  `pending` says that a
change has happened since the last tick. -/
def tickSeparated (s : State) (pending : Bool) : List Event → Bool
  | [] => !pending
  | e :: es =>
    if isTick e then tickSeparated (step s e).1 false es
    else if physicalOf s e = [] then tickSeparated (step s e).1 pending es
    else !pending && tickSeparated (step s e).1 true es

/-- Number of `BLEDevice::startAdvertising()` calls in a list of calls. -/
def advertisingCalls (l : List Effect) : Nat := l.count Effect.startAdvertising

/-- No event of the trace started in `s` takes the connect-edge branch. -/
def noConnectEdge (s : State) : List Event → Bool
  | [] => true
  | e :: es => !takesConnectEdge s e && noConnectEdge (step s e).1 es

/-- The edge handling as the specification words it (section 4.5, steps 2
and 3): `if` disconnect edge `else if` connect edge. -/
def edgeStepElseIf (s : State) : State × List Effect :=
  if !s.deviceConnected && s.oldDeviceConnected then disconnectBranch s
  else if s.deviceConnected && !s.oldDeviceConnected then connectBranch s
  else (s, [])

/-- One tick with the edge handling of the specification in place of the two
sequential `if` statements of lines 88-100. -/
def loopElseIf (s : State) (t1 t2 : Nat) : State × List Effect :=
  let r := edgeStepElseIf s
  let r3 := loopHeartbeat r.1 t1 t2
  (r3.1, r.2 ++ r3.2 ++ [Effect.delay 50])

/-- Whether an event is one of the two connection callbacks, `onConnect` or
`onDisconnect`. -/
def isConnectionCallback : Event → Bool
  | Event.connect => true
  | Event.disconnect => true
  | _ => false

/-- A stretch of a trace during which the stack delivers no connection
callback: only ticks of `loop()` and writes. -/
def quiet (evs : List Event) : Bool := evs.all (fun e => !isConnectionCallback e)

/-- Number of executions of `loop()` in a trace. -/
def tickCount (evs : List Event) : Nat := evs.countP isTick

/-- The clock value each tick of a trace reads on line 105. -/
def tickStarts : List Event → List Nat
  | [] => []
  | Event.tick t1 _ :: es => t1 :: tickStarts es
  | Event.connect :: es => tickStarts es
  | Event.disconnect :: es => tickStarts es
  | Event.write _ :: es => tickStarts es

/-- The ticks of the trace come every 50 ms (the `delay(50)` of line 114), the
first at clock `t`, each reading the same clock value on lines 105 and 110,
and no connection callback is delivered; writes may come at any point. -/
def ticksEvery50 (t : Nat) : List Event → Bool
  | [] => true
  | Event.tick t1 t2 :: es => decide (t1 = t) && decide (t2 = t) && ticksEvery50 (t + 50) es
  | Event.write _ :: es => ticksEvery50 t es
  | Event.connect :: _ => false
  | Event.disconnect :: _ => false

/-- Number of heartbeats of the list emitted by a tick that ran after clock `T`
and no later than clock `B`. -/
def heartbeatsBetween (T B : Nat) (l : List (Nat × Nat)) : Nat :=
  l.countP (fun h => decide (T < h.1 ∧ h.1 ≤ B))

/-- The trace of `n` executions of `loop()` 50 ms apart, the first at clock
`t`. -/
def ticksFrom (t : Nat) : Nat → List Event
  | 0 => []
  | n + 1 => Event.tick t t :: ticksFrom (t + 50) n

/-! ## Basic facts about `loop()` -/

theorem usub_gt_of_le (t L : Nat) (hL : L ≤ t) (h : usub (millis t) (millis L) > 3000) :
    L + 3000 < t := by
  unfold usub millis ULONG at h
  omega

theorem loopDisconnect_deviceConnected (s : State) :
    (loopDisconnect s).1.deviceConnected = s.deviceConnected := by
  unfold loopDisconnect disconnectBranch
  split <;> rfl

theorem loopDisconnect_lastSend (s : State) :
    (loopDisconnect s).1.lastSend = s.lastSend := by
  unfold loopDisconnect disconnectBranch
  split <;> rfl

theorem loopConnect_deviceConnected (s : State) :
    (loopConnect s).1.deviceConnected = s.deviceConnected := by
  unfold loopConnect connectBranch
  split <;> rfl

theorem loopConnect_lastSend (s : State) :
    (loopConnect s).1.lastSend = s.lastSend := by
  unfold loopConnect connectBranch
  split <;> rfl

theorem emitsHeartbeat_append (a b : List Effect) :
    emitsHeartbeat (a ++ b) = (emitsHeartbeat a || emitsHeartbeat b) := by
  simp [emitsHeartbeat]

theorem emitsHeartbeat_loopDisconnect (s : State) :
    emitsHeartbeat (loopDisconnect s).2 = false := by
  unfold loopDisconnect disconnectBranch
  split <;> simp [emitsHeartbeat, isHeartbeat]

theorem emitsHeartbeat_loopConnect (s : State) :
    emitsHeartbeat (loopConnect s).2 = false := by
  unfold loopConnect connectBranch
  split <;> simp [emitsHeartbeat, isHeartbeat]

theorem emitsHeartbeat_loopHeartbeat (s : State) (t1 t2 : Nat) :
    emitsHeartbeat (loopHeartbeat s t1 t2).2 = (s.deviceConnected && heartbeatDue s t1) := by
  unfold loopHeartbeat heartbeatBranch
  cases hd : s.deviceConnected <;> cases hh : heartbeatDue s t1 <;>
    simp [emitsHeartbeat, isHeartbeat]

theorem heartbeatDue_congr (s r : State) (t1 : Nat) (h : r.lastSend = s.lastSend) :
    heartbeatDue r t1 = heartbeatDue s t1 := by
  unfold heartbeatDue
  rw [h]

theorem emitsHeartbeat_loop (s : State) (t1 t2 : Nat) :
    emitsHeartbeat (loop s t1 t2).2 = (s.deviceConnected && heartbeatDue s t1) := by
  have hl : (loopConnect (loopDisconnect s).1).1.lastSend = s.lastSend := by
    rw [loopConnect_lastSend, loopDisconnect_lastSend]
  unfold loop
  simp only [emitsHeartbeat_append, emitsHeartbeat_loopDisconnect,
    emitsHeartbeat_loopConnect, emitsHeartbeat_loopHeartbeat, loopConnect_deviceConnected,
    loopDisconnect_deviceConnected, heartbeatDue_congr _ _ t1 hl]
  simp [emitsHeartbeat, isHeartbeat]

/-! ## Heartbeat gating -/

/-- C1. One execution of `loop()` emits a heartbeat (a `setValue` or `notify`
on the characteristic) only if `deviceConnected` is true and
`millis() - lastSend`, computed as the code computes it, is at least 3000; the
same bound holds for the true time since the clock value `L` at which
`lastSend` was recorded; a tick with `deviceConnected == false` emits none. -/
theorem loop_heartbeat_gating (s : State) (t1 t2 : Nat) :
    (emitsHeartbeat (loop s t1 t2).2 = true →
      s.deviceConnected = true ∧ 3000 ≤ usub (millis t1) s.lastSend ∧
      ∀ L, L ≤ t1 → millis L = s.lastSend → 3000 ≤ t1 - L) ∧
    (s.deviceConnected = false → emitsHeartbeat (loop s t1 t2).2 = false) := by
  rw [emitsHeartbeat_loop]
  refine ⟨fun h => ?_, fun h => by simp [h]⟩
  simp only [Bool.and_eq_true, heartbeatDue, decide_eq_true_eq] at h
  refine ⟨h.1, Nat.le_of_lt h.2, fun L hL hm => ?_⟩
  have := usub_gt_of_le t1 L hL (by rw [hm]; exact h.2)
  omega

/-- Witness for C1: a connected state at clock 3001 with `lastSend = 0` emits
a heartbeat, and the conclusions of the gating theorem hold there. -/
theorem loop_heartbeat_gating_witness :
    emitsHeartbeat (loop { setup with deviceConnected := true } 3001 3002).2 = true ∧
    ({ setup with deviceConnected := true } : State).deviceConnected = true ∧
    3000 ≤ usub (millis 3001) ({ setup with deviceConnected := true } : State).lastSend :=
  ⟨by decide,
   ((loop_heartbeat_gating { setup with deviceConnected := true } 3001 3002).1 (by decide)).1,
   ((loop_heartbeat_gating { setup with deviceConnected := true } 3001 3002).1 (by decide)).2.1⟩

theorem loopHeartbeat_lastSend (s : State) (t1 t2 : Nat) :
    (loopHeartbeat s t1 t2).1.lastSend =
      if s.deviceConnected && heartbeatDue s t1 then millis t2 else s.lastSend := by
  unfold loopHeartbeat heartbeatBranch
  cases hd : s.deviceConnected <;> cases hh : heartbeatDue s t1 <;> simp

theorem loop_lastSend (s : State) (t1 t2 : Nat) :
    (loop s t1 t2).1.lastSend =
      if emitsHeartbeat (loop s t1 t2).2 then millis t2 else s.lastSend := by
  have hl : (loopConnect (loopDisconnect s).1).1.lastSend = s.lastSend := by
    rw [loopConnect_lastSend, loopDisconnect_lastSend]
  rw [emitsHeartbeat_loop]
  unfold loop
  simp only [loopHeartbeat_lastSend, loopConnect_deviceConnected,
    loopDisconnect_deviceConnected, heartbeatDue_congr _ _ t1 hl, hl]

theorem onWrite_fst (s : State) : (onWrite s).1 = s := by
  unfold onWrite
  split <;> rfl

theorem step_lastSend_of_not_tick (s : State) (e : Event) (h : isTick e = false) :
    (step s e).1.lastSend = s.lastSend := by
  cases e with
  | connect => rfl
  | disconnect => rfl
  | write payload => simp [step, onWrite_fst]
  | tick t1 t2 => simp [isTick] at h

/-! ## Heartbeat spacing -/

theorem heartbeats_after (evs : List Event) :
    ∀ (s : State) (L : Nat), s.lastSend = millis L →
      (∀ t ∈ readings evs, L ≤ t) → (readings evs).Pairwise (· ≤ ·) →
      ∀ w ∈ heartbeats s evs, L + 3000 < w.1 := by
  induction evs with
  | nil => intro s L _ _ _ w hw; simp [heartbeats] at hw
  | cons e es ih =>
    intro s L hs hlow hpw w hw
    cases e with
    | tick t1 t2 =>
      simp only [readings, clockOf, List.cons_append, List.nil_append, List.mem_cons,
        forall_eq_or_imp, List.pairwise_cons] at hlow hpw
      obtain ⟨hL1, hL2, hlow⟩ := hlow
      obtain ⟨h1, h2, hpw⟩ := hpw
      simp only [heartbeats, heartbeatOf, step, List.mem_append] at hw
      by_cases hem : emitsHeartbeat (loop s t1 t2).2 = true
      · have hdue : usub (millis t1) (millis L) > 3000 := by
          rw [emitsHeartbeat_loop] at hem
          simp only [Bool.and_eq_true, heartbeatDue, decide_eq_true_eq] at hem
          rw [← hs]; exact hem.2
        have hgt := usub_gt_of_le t1 L hL1 hdue
        rcases hw with hw | hw
        · simp only [hem, if_true, List.mem_singleton] at hw
          rw [hw]; exact hgt
        · have hls : (loop s t1 t2).1.lastSend = millis t2 := by
            rw [loop_lastSend]; simp [hem]
          have := ih (loop s t1 t2).1 t2 hls h2 hpw w hw
          have := h1.1
          omega
      · rcases hw with hw | hw
        · simp [hem] at hw
        · have hls : (loop s t1 t2).1.lastSend = millis L := by
            rw [loop_lastSend]; simp [hem, hs]
          exact ih (loop s t1 t2).1 L hls hlow hpw w hw
    | connect =>
      simp only [heartbeats, heartbeatOf, List.nil_append] at hw
      exact ih _ L (by simpa [step, onConnect] using hs) (by simpa [readings, clockOf] using hlow)
        (by simpa [readings, clockOf] using hpw) w hw
    | disconnect =>
      simp only [heartbeats, heartbeatOf, List.nil_append] at hw
      exact ih _ L (by simpa [step, onDisconnect] using hs)
        (by simpa [readings, clockOf] using hlow) (by simpa [readings, clockOf] using hpw) w hw
    | write payload =>
      simp only [heartbeats, heartbeatOf, List.nil_append] at hw
      exact ih _ L (by simpa [step, onWrite_fst] using hs)
        (by simpa [readings, clockOf] using hlow) (by simpa [readings, clockOf] using hpw) w hw

/-- C2. Along every trace of callbacks and ticks whose clock readings never
decrease, started in any state, two successive heartbeats are more than
3000 ms apart: the tick of the later one reads the clock on line 105 more than
3000 ms after the tick of the earlier one read it on line 110.  Callbacks
between the two, a disconnect and reconnect included, change nothing. -/
theorem heartbeat_spacing (s : State) (evs : List Event)
    (hclk : (readings evs).Pairwise (· ≤ ·)) :
    (heartbeats s evs).Chain' (fun a b => a.2 + 3000 < b.1) := by
  induction evs generalizing s with
  | nil => simp [heartbeats]
  | cons e es ih =>
    cases e with
    | tick t1 t2 =>
      simp only [readings, clockOf, List.cons_append, List.nil_append,
        List.pairwise_cons] at hclk
      obtain ⟨_, h2, hpw⟩ := hclk
      simp only [heartbeats, heartbeatOf, step]
      by_cases hem : emitsHeartbeat (loop s t1 t2).2 = true
      · simp only [hem, if_true, List.singleton_append]
        refine (ih _ hpw).cons' ?_
        intro y hy
        have hls : (loop s t1 t2).1.lastSend = millis t2 := by
          rw [loop_lastSend]; simp [hem]
        exact heartbeats_after es _ t2 hls h2 hpw y (List.mem_of_mem_head? hy)
      · simp only [hem, List.nil_append]
        exact ih _ hpw
    | connect =>
      simp only [heartbeats, heartbeatOf, List.nil_append]
      exact ih _ (by simpa [readings, clockOf] using hclk)
    | disconnect =>
      simp only [heartbeats, heartbeatOf, List.nil_append]
      exact ih _ (by simpa [readings, clockOf] using hclk)
    | write payload =>
      simp only [heartbeats, heartbeatOf, List.nil_append]
      exact ih _ (by simpa [readings, clockOf] using hclk)

/-- Witness for C2: connect, heartbeat at 3001, disconnect and reconnect, a
tick 2 s later that stays silent, and the next heartbeat at 6003. -/
theorem heartbeat_spacing_witness :
    heartbeats setup [Event.connect, Event.tick 3001 3002, Event.disconnect, Event.connect,
      Event.tick 5000 5000, Event.tick 6003 6004] = [(3001, 3002), (6003, 6004)] ∧
    (heartbeats setup [Event.connect, Event.tick 3001 3002, Event.disconnect, Event.connect,
      Event.tick 5000 5000, Event.tick 6003 6004]).Chain' (fun a b => a.2 + 3000 < b.1) :=
  ⟨by decide,
   heartbeat_spacing setup [Event.connect, Event.tick 3001 3002, Event.disconnect,
     Event.connect, Event.tick 5000 5000, Event.tick 6003 6004] (by decide)⟩

/-! ## Edge detection -/

theorem loop_flags (s : State) (t1 t2 : Nat) :
    (loop s t1 t2).1.deviceConnected = s.deviceConnected ∧
    (loop s t1 t2).1.oldDeviceConnected = s.deviceConnected := by
  obtain ⟨d, o, l, c⟩ := s
  unfold loop loopHeartbeat heartbeatBranch loopConnect connectBranch connectEdge
    loopDisconnect disconnectBranch disconnectEdge
  cases d <;> cases o <;> simp <;> split <;> simp

theorem edgeActionsOf_tick (s : State) (t1 t2 : Nat) :
    edgeActionsOf s (Event.tick t1 t2) =
      if s.oldDeviceConnected = s.deviceConnected then []
      else if s.deviceConnected then [Edge.connected] else [Edge.disconnected] := by
  obtain ⟨d, o, l, c⟩ := s
  unfold edgeActionsOf takesDisconnectEdge takesConnectEdge connectEdge loopDisconnect
    disconnectBranch disconnectEdge
  cases d <;> cases o <;> simp

theorem edgeActions_of_tickSeparated (evs : List Event) :
    ∀ (s : State) (pending : Bool),
      (pending = false → s.oldDeviceConnected = s.deviceConnected) →
      (pending = true → s.oldDeviceConnected = !s.deviceConnected) →
      tickSeparated s pending evs = true →
      edgeActions s evs =
        (if pending then [if s.deviceConnected then Edge.connected else Edge.disconnected]
          else []) ++ physicalEvents s evs := by
  induction evs with
  | nil =>
    intro s pending _ _ h
    cases pending <;> simp [tickSeparated, edgeActions, physicalEvents] at h ⊢
  | cons e es ih =>
    intro s pending hf ht h
    cases e with
    | tick t1 t2 =>
      simp only [tickSeparated, isTick, if_true, step] at h
      have hfl := loop_flags s t1 t2
      have := ih (loop s t1 t2).1 false (fun _ => by rw [hfl.1, hfl.2])
        (fun hp => by simp at hp) h
      simp only [edgeActions, physicalEvents, physicalOf, step, this, edgeActionsOf_tick]
      cases pending
      · simp [hf rfl]
      · have := ht rfl
        cases hd : s.deviceConnected <;> simp [hd] at this ⊢ <;> simp [this]
    | write payload =>
      simp only [tickSeparated, isTick, physicalOf, if_true, Bool.false_eq_true, if_false] at h
      have hs : (step s (Event.write payload)).1 = { s with characteristic := payload } := by
        simp [step, onWrite_fst]
      rw [hs] at h
      have := ih { s with characteristic := payload } pending hf ht h
      simp only [edgeActions, physicalEvents, physicalOf, hs, this, edgeActionsOf,
        takesDisconnectEdge, takesConnectEdge]
      simp
    | connect =>
      simp only [tickSeparated, isTick, physicalOf, Bool.false_eq_true, if_false] at h
      cases hd : s.deviceConnected
      · simp only [hd, Bool.false_eq_true, if_false, List.cons_ne_nil, Bool.and_eq_true,
          Bool.not_eq_true'] at h
        obtain ⟨hp, h⟩ := h
        subst hp
        have ho := hf rfl
        rw [hd] at ho
        have := ih (step s Event.connect).1 true (fun hp => by simp at hp)
          (fun _ => by simp [step, onConnect, ho]) h
        simp only [edgeActions, physicalEvents, physicalOf, this, edgeActionsOf,
          takesDisconnectEdge, takesConnectEdge, hd]
        simp [step, onConnect]
      · simp only [hd, if_true] at h
        have hs : (step s Event.connect).1 = s := by
          obtain ⟨d, o, l, c⟩ := s
          simp only at hd
          simp [step, onConnect, hd]
        rw [hs] at h
        have := ih s pending hf ht h
        simp only [edgeActions, physicalEvents, physicalOf, hs, this, edgeActionsOf,
          takesDisconnectEdge, takesConnectEdge, hd]
        simp
    | disconnect =>
      simp only [tickSeparated, isTick, physicalOf, Bool.false_eq_true, if_false] at h
      cases hd : s.deviceConnected
      · simp only [hd, Bool.false_eq_true, if_false, if_true] at h
        have hs : (step s Event.disconnect).1 = s := by
          obtain ⟨d, o, l, c⟩ := s
          simp only at hd
          simp [step, onDisconnect, hd]
        rw [hs] at h
        have := ih s pending hf ht h
        simp only [edgeActions, physicalEvents, physicalOf, hs, this, edgeActionsOf,
          takesDisconnectEdge, takesConnectEdge, hd]
        simp
      · simp only [hd, if_true, List.cons_ne_nil, if_false, Bool.and_eq_true,
          Bool.not_eq_true'] at h
        obtain ⟨hp, h⟩ := h
        subst hp
        have ho := hf rfl
        rw [hd] at ho
        have := ih (step s Event.disconnect).1 true (fun hp => by simp at hp)
          (fun _ => by simp [step, onDisconnect, ho]) h
        simp only [edgeActions, physicalEvents, physicalOf, this, edgeActionsOf,
          takesDisconnectEdge, takesConnectEdge, hd]
        simp [step, onDisconnect]

/-- C3, counterexample. After `setup()`, an `onConnect` and an `onDisconnect`
that arrive between two ticks are two physical changes, and the tick that
follows performs no edge action at all: the became-connected event produces no
connect-edge action and the became-disconnected event no disconnect-edge
action (and no re-advertising). -/
theorem edge_exclusivity_counterexample :
    physicalEvents setup [Event.connect, Event.disconnect, Event.tick 100 100] =
      [Edge.connected, Edge.disconnected] ∧
    edgeActions setup [Event.connect, Event.disconnect, Event.tick 100 100] = [] ∧
    (edgeActions setup [Event.connect, Event.disconnect, Event.tick 100 100]).count
        Edge.connected ≠
      (physicalEvents setup [Event.connect, Event.disconnect, Event.tick 100 100]).count
        Edge.connected := by
  decide

/-- C3, amended. From any state in which the two flags agree, along any trace
in which every physical connection change is followed by a tick of `loop()`
before the next change and before the end of the trace, the edge actions
performed are the physical changes, one for one and in the same order; so
each became-connected event produces exactly one connect-edge action and each
became-disconnected event exactly one disconnect-edge action. -/
theorem edge_exclusivity_tickSeparated (s : State) (evs : List Event)
    (hsync : s.oldDeviceConnected = s.deviceConnected)
    (hsep : tickSeparated s false evs = true) :
    edgeActions s evs = physicalEvents s evs ∧
    (edgeActions s evs).count Edge.connected = (physicalEvents s evs).count Edge.connected ∧
    (edgeActions s evs).count Edge.disconnected =
      (physicalEvents s evs).count Edge.disconnected := by
  have h := edgeActions_of_tickSeparated evs s false (fun _ => hsync)
    (fun hp => by simp at hp) hsep
  simp only [Bool.false_eq_true, if_false, List.nil_append] at h
  rw [h]
  exact ⟨rfl, rfl, rfl⟩

/-- Witness for the amended C3: connect, tick, a write, disconnect, two ticks,
reconnect, tick. -/
theorem edge_exclusivity_tickSeparated_witness :
    tickSeparated setup false [Event.connect, Event.tick 10 10,
      Event.write ['P', 'I', 'N', 'G'], Event.disconnect, Event.tick 60 60,
      Event.tick 610 610, Event.connect, Event.tick 700 700] = true ∧
    physicalEvents setup [Event.connect, Event.tick 10 10,
      Event.write ['P', 'I', 'N', 'G'], Event.disconnect, Event.tick 60 60,
      Event.tick 610 610, Event.connect, Event.tick 700 700] =
      [Edge.connected, Edge.disconnected, Edge.connected] ∧
    edgeActions setup [Event.connect, Event.tick 10 10,
      Event.write ['P', 'I', 'N', 'G'], Event.disconnect, Event.tick 60 60,
      Event.tick 610 610, Event.connect, Event.tick 700 700] =
    physicalEvents setup [Event.connect, Event.tick 10 10,
      Event.write ['P', 'I', 'N', 'G'], Event.disconnect, Event.tick 60 60,
      Event.tick 610 610, Event.connect, Event.tick 700 700] :=
  ⟨by decide, by decide,
   (edge_exclusivity_tickSeparated setup [Event.connect, Event.tick 10 10,
      Event.write ['P', 'I', 'N', 'G'], Event.disconnect, Event.tick 60 60,
      Event.tick 610 610, Event.connect, Event.tick 700 700] rfl (by decide)).1⟩

/-! ## Re-advertising -/

theorem advertisingCalls_append (a b : List Effect) :
    advertisingCalls (a ++ b) = advertisingCalls a + advertisingCalls b := by
  simp [advertisingCalls]

theorem advertisingCalls_loop (s : State) (t1 t2 : Nat) :
    advertisingCalls (loop s t1 t2).2 = if disconnectEdge s then 1 else 0 := by
  obtain ⟨d, o, l, c⟩ := s
  unfold loop loopHeartbeat heartbeatBranch loopConnect connectBranch connectEdge
    loopDisconnect disconnectBranch disconnectEdge
  cases d <;> cases o <;> simp [advertisingCalls] <;> split <;> simp

theorem advertisingCalls_step_of_not_tick (s : State) (e : Event) (h : isTick e = false) :
    advertisingCalls (step s e).2 = 0 := by
  cases e with
  | connect => simp [step, onConnect, advertisingCalls]
  | disconnect => simp [step, onDisconnect, advertisingCalls]
  | write payload =>
    simp only [step, onWrite]
    split <;> simp [advertisingCalls]
  | tick t1 t2 => simp [isTick] at h

theorem step_oldDeviceConnected_of_not_tick (s : State) (e : Event) (h : isTick e = false) :
    (step s e).1.oldDeviceConnected = s.oldDeviceConnected := by
  cases e with
  | connect => rfl
  | disconnect => rfl
  | write payload => simp [step, onWrite_fst]
  | tick t1 t2 => simp [isTick] at h

theorem effects_append (a b : List Event) :
    ∀ s : State, effects s (a ++ b) = effects s a ++ effects (run s a) b := by
  induction a with
  | nil => intro s; simp [effects, run]
  | cons e es ih => intro s; simp [effects, run, ih]

theorem takesConnectEdge_of_old_false (s : State) (e : Event)
    (ho : s.oldDeviceConnected = false) :
    takesConnectEdge s e = (isTick e && s.deviceConnected) := by
  obtain ⟨d, o, l, c⟩ := s
  simp only at ho
  subst ho
  cases e <;> simp [takesConnectEdge, isTick, connectEdge, loopDisconnect, disconnectEdge]

theorem silent_until_connectEdge (evs : List Event) :
    ∀ s : State, s.oldDeviceConnected = false → noConnectEdge s evs = true →
      advertisingCalls (effects s evs) = 0 ∧ (run s evs).oldDeviceConnected = false := by
  induction evs with
  | nil => intro s ho _; simp [effects, run, advertisingCalls, ho]
  | cons e es ih =>
    intro s ho h
    simp only [noConnectEdge, Bool.and_eq_true, Bool.not_eq_true',
      takesConnectEdge_of_old_false s e ho] at h
    obtain ⟨he, h⟩ := h
    cases ht : isTick e
    · have := ih (step s e).1 (by rw [step_oldDeviceConnected_of_not_tick s e ht, ho]) h
      simp [effects, run, advertisingCalls_append, advertisingCalls_step_of_not_tick s e ht,
        this]
    · cases e with
      | tick t1 t2 =>
        simp only [isTick, Bool.true_and] at he
        have hfl := loop_flags s t1 t2
        have := ih (step s (Event.tick t1 t2)).1 (by simp [step, hfl.2, he]) h
        simp only [step] at this
        simp [effects, run, advertisingCalls_append, this, step, advertisingCalls_loop,
          disconnectEdge, ho]
      | connect => simp [isTick] at ht
      | disconnect => simp [isTick] at ht
      | write payload => simp [isTick] at ht

/-- C4. A tick that takes the disconnect-edge branch calls
`BLEDevice::startAdvertising()` exactly once and a tick that does not take it
calls it zero times; and when a tick takes the disconnect-edge branch, the
calls made from that tick up to and including the next event that takes the
connect-edge branch (callbacks and ticks alike) contain exactly one
`startAdvertising`, as do the calls made before that event. -/
theorem readvertise_on_disconnect (s : State) (t1 t2 : Nat) (mid : List Event) (c : Event) :
    advertisingCalls (loop s t1 t2).2 = (if disconnectEdge s then 1 else 0) ∧
    (disconnectEdge s = true → noConnectEdge (loop s t1 t2).1 mid = true →
      advertisingCalls (effects s (Event.tick t1 t2 :: mid)) = 1 ∧
      (takesConnectEdge (run (loop s t1 t2).1 mid) c = true →
        advertisingCalls (effects s (Event.tick t1 t2 :: (mid ++ [c]))) = 1)) := by
  refine ⟨advertisingCalls_loop s t1 t2, fun hd hmid => ?_⟩
  have hfl := loop_flags s t1 t2
  have hdev : s.deviceConnected = false := by
    simp only [disconnectEdge, Bool.and_eq_true, Bool.not_eq_true'] at hd
    exact hd.1
  have hold : (loop s t1 t2).1.oldDeviceConnected = false := by rw [hfl.2, hdev]
  obtain ⟨hcount, hrun⟩ := silent_until_connectEdge mid _ hold hmid
  refine ⟨?_, fun hc => ?_⟩
  · simp [effects, step, advertisingCalls_append, advertisingCalls_loop, hd, hcount]
  · cases c with
    | tick u1 u2 =>
      have hlast : advertisingCalls (loop (run (loop s t1 t2).1 mid) u1 u2).2 = 0 := by
        rw [advertisingCalls_loop]
        simp [disconnectEdge, hrun]
      simp [effects, step, effects_append, advertisingCalls_append, advertisingCalls_loop,
        hd, hcount, hlast]
    | connect => simp [takesConnectEdge] at hc
    | disconnect => simp [takesConnectEdge] at hc
    | write payload => simp [takesConnectEdge] at hc

/-- Witness for C4: connected with both flags set, the link drops; the next
tick re-advertises once, an idle tick and the reconnect callback follow, and
the tick after that processes the connect edge. -/
theorem readvertise_on_disconnect_witness :
    disconnectEdge { setup with oldDeviceConnected := true } = true ∧
    advertisingCalls (effects { setup with oldDeviceConnected := true }
      (Event.tick 100 100 :: ([Event.tick 650 650, Event.connect] ++ [Event.tick 700 700])))
      = 1 :=
  ⟨by decide,
   ((readvertise_on_disconnect { setup with oldDeviceConnected := true } 100 100
      [Event.tick 650 650, Event.connect] (Event.tick 700 700)).2 (by decide) (by decide)).2
      (by decide)⟩

/-! ## The two edge branches exclude each other -/

/-- C5. For every state, one execution of `loop()` takes at most one of the
disconnect-edge branch (line 88) and the connect-edge branch (line 97, guard
evaluated after the first `if` has run); the two sequential `if` statements
compute the same state and make the same calls as the `if ... else if ...`
of the specification, and so does the whole tick. -/
theorem loop_edges_exclusive (s : State) (t1 t2 : Nat) :
    ¬ (disconnectEdge s = true ∧ connectEdge (loopDisconnect s).1 = true) ∧
    ((loopConnect (loopDisconnect s).1).1,
      (loopDisconnect s).2 ++ (loopConnect (loopDisconnect s).1).2) = edgeStepElseIf s ∧
    loop s t1 t2 = loopElseIf s t1 t2 := by
  obtain ⟨d, o, l, c⟩ := s
  unfold loop loopElseIf edgeStepElseIf loopConnect connectBranch connectEdge
    loopDisconnect disconnectBranch disconnectEdge
  cases d <;> cases o <;> simp

/-! ## Writes from the central -/

/-- C6. For every state whose characteristic value has length zero, `onWrite`
makes no call at all (nothing is printed or forwarded) and returns the state
unchanged: `deviceConnected`, `oldDeviceConnected`, `lastSend` and the
characteristic value are what they were. -/
theorem onWrite_empty (s : State) (h : s.characteristic.length = 0) :
    (onWrite s).2 = [] ∧ (onWrite s).1 = s ∧
    (onWrite s).1.deviceConnected = s.deviceConnected ∧
    (onWrite s).1.oldDeviceConnected = s.oldDeviceConnected ∧
    (onWrite s).1.lastSend = s.lastSend ∧
    (onWrite s).1.characteristic = s.characteristic := by
  unfold onWrite
  simp [h]

/-- Witness for C6: an empty write delivered to a connected state. -/
theorem onWrite_empty_witness :
    (onWrite (State.mk true true 7 [])).2 = [] ∧
    (onWrite (State.mk true true 7 [])).1 =
      (State.mk true true 7 []) :=
  ⟨(onWrite_empty (State.mk true true 7 []) rfl).1,
   (onWrite_empty (State.mk true true 7 []) rfl).2.1⟩

theorem c_str_of_no_nul (v : List Char) (h : ∀ c ∈ v, c ≠ Char.ofNat 0) : c_str v = v := by
  unfold c_str
  rw [List.takeWhile_eq_self_iff]
  intro c hc
  simpa using h c hc

/-- C7, counterexample. The central writes the three characters `A`, NUL, `B`.
The value has length 3, so `onWrite` prints, but line 35 passes `c_str()` to
`Serial.println`, which stops at the NUL: the line printed is `A` alone, not the
payload. -/
theorem onWrite_forward_counterexample :
    (['A', Char.ofNat 0, 'B'] : List Char).length > 0 ∧
    (step setup (Event.write ['A', Char.ofNat 0, 'B'])).2 =
      [Effect.serialPrint "📩 App -> Master: ".toList, Effect.serialPrintln ['A']] ∧
    (step setup (Event.write ['A', Char.ofNat 0, 'B'])).2 ≠
      [Effect.serialPrint "📩 App -> Master: ".toList,
       Effect.serialPrintln ['A', Char.ofNat 0, 'B']] := by
  decide

/-- C7, amended. For every non-empty payload that contains no NUL character,
`onWrite` prints the header and then exactly the characters of the payload,
nothing dropped, truncated or altered, and leaves the payload in the
characteristic. -/
theorem onWrite_forward_no_nul (s : State) (payload : List Char)
    (hlen : payload.length > 0) (hnul : ∀ c ∈ payload, c ≠ Char.ofNat 0) :
    (step s (Event.write payload)).2 =
      [Effect.serialPrint "📩 App -> Master: ".toList, Effect.serialPrintln payload] ∧
    (step s (Event.write payload)).1.characteristic = payload := by
  have hc := c_str_of_no_nul payload hnul
  have hif : (onWrite { s with characteristic := payload }) =
      ({ s with characteristic := payload },
       [Effect.serialPrint "📩 App -> Master: ".toList, Effect.serialPrintln payload]) := by
    unfold onWrite
    rw [if_pos hlen, hc]
  simp only [step, hif]
  exact ⟨trivial, trivial⟩

/-- Witness for the amended C7: the payload `PING`. -/
theorem onWrite_forward_no_nul_witness :
    (step setup (Event.write ['P', 'I', 'N', 'G'])).2 =
      [Effect.serialPrint "📩 App -> Master: ".toList,
       Effect.serialPrintln ['P', 'I', 'N', 'G']] :=
  (onWrite_forward_no_nul setup ['P', 'I', 'N', 'G'] (by decide) (by decide)).1

/-! ## Heartbeat content and firing -/

theorem heartbeat_filter_loop (s : State) (t1 t2 : Nat) :
    (loop s t1 t2).2.filter isHeartbeat =
      if s.deviceConnected && heartbeatDue s t1 then
        [Effect.setValue msg, Effect.notify msg] else [] := by
  have hl : (loopConnect (loopDisconnect s).1).1.lastSend = s.lastSend := by
    rw [loopConnect_lastSend, loopDisconnect_lastSend]
  have hm : c_str msg = msg := by decide
  have h1 : (loopDisconnect s).2.filter isHeartbeat = [] := by
    unfold loopDisconnect disconnectBranch
    split <;> simp [isHeartbeat]
  have h2 : (loopConnect (loopDisconnect s).1).2.filter isHeartbeat = [] := by
    unfold loopConnect connectBranch
    split <;> simp [isHeartbeat]
  have h3 : ∀ r : State, (loopHeartbeat r t1 t2).2.filter isHeartbeat =
      if r.deviceConnected && heartbeatDue r t1 then
        [Effect.setValue msg, Effect.notify msg] else [] := by
    intro r
    unfold loopHeartbeat heartbeatBranch
    cases hd : r.deviceConnected <;> cases hh : heartbeatDue r t1 <;> simp [isHeartbeat, hm]
  unfold loop
  simp only [List.filter_append, h1, h2, h3, loopConnect_deviceConnected,
    loopDisconnect_deviceConnected, heartbeatDue_congr _ _ t1 hl]
  simp [isHeartbeat]

theorem loop_characteristic (s : State) (t1 t2 : Nat) :
    (loop s t1 t2).1.characteristic =
      if s.deviceConnected && heartbeatDue s t1 then msg else s.characteristic := by
  have hm : c_str msg = msg := by decide
  obtain ⟨d, o, l, c⟩ := s
  unfold loop loopHeartbeat heartbeatBranch loopConnect connectBranch connectEdge
    loopDisconnect disconnectBranch disconnectEdge
  cases d <;> cases o <;> simp [heartbeatDue, hm] <;> split <;> simp

/-- C8. Every tick of `loop()` that emits a heartbeat makes exactly two calls
on the characteristic, in this order: `setValue` with the 26 ASCII characters
`Hello from NeoXalle Master`, then one `notify`, which sends that same string;
the characteristic holds the string afterwards, whatever it held before. -/
theorem heartbeat_content (s : State) (t1 t2 : Nat)
    (h : emitsHeartbeat (loop s t1 t2).2 = true) :
    (loop s t1 t2).2.filter isHeartbeat =
      [Effect.setValue "Hello from NeoXalle Master".toList,
       Effect.notify "Hello from NeoXalle Master".toList] ∧
    (loop s t1 t2).1.characteristic = "Hello from NeoXalle Master".toList ∧
    "Hello from NeoXalle Master".toList.length = 26 ∧
    (∀ c ∈ "Hello from NeoXalle Master".toList, c.toNat < 128) := by
  rw [emitsHeartbeat_loop] at h
  rw [heartbeat_filter_loop, loop_characteristic, h]
  exact ⟨rfl, rfl, by decide, by decide⟩

/-- Witness for C8: a connected state in which the central had written `PING`,
at a clock value past the interval. -/
theorem heartbeat_content_witness :
    (loop (State.mk true true 0 ['P', 'I', 'N', 'G']) 3001 3002).2.filter isHeartbeat =
      [Effect.setValue "Hello from NeoXalle Master".toList,
       Effect.notify "Hello from NeoXalle Master".toList] :=
  (heartbeat_content (State.mk true true 0 ['P', 'I', 'N', 'G']) 3001 3002 (by decide)).1

/-- C9, counterexample. Connected, `lastSend = 0`, and `millis()` reads exactly
3000: the elapsed time is at least 3000 ms, yet the guard of line 105 is
`> 3000`, so the tick emits nothing and `lastSend` stays 0. -/
theorem heartbeat_firing_counterexample :
    ({ setup with deviceConnected := true } : State).deviceConnected = true ∧
    usub (millis 3000) ({ setup with deviceConnected := true } : State).lastSend ≥ 3000 ∧
    emitsHeartbeat (loop { setup with deviceConnected := true } 3000 3000).2 = false ∧
    (loop { setup with deviceConnected := true } 3000 3000).1.lastSend = 0 ∧
    (loop { setup with deviceConnected := true } 3000 3000).1.lastSend ≠ millis 3000 := by
  decide

/-- C9, amended. For every tick of `loop()` with `deviceConnected == true` at
which `millis() - lastSend` (unsigned, as line 105 computes it) is greater
than 3000, the tick emits a heartbeat, `setValue` then `notify` of the
heartbeat string, and sets `lastSend` to the reading of `millis()` on
line 110. -/
theorem heartbeat_firing (s : State) (t1 t2 : Nat)
    (hc : s.deviceConnected = true) (hdue : usub (millis t1) s.lastSend > 3000) :
    emitsHeartbeat (loop s t1 t2).2 = true ∧
    (loop s t1 t2).2.filter isHeartbeat = [Effect.setValue msg, Effect.notify msg] ∧
    (loop s t1 t2).1.lastSend = millis t2 := by
  have hem : emitsHeartbeat (loop s t1 t2).2 = true := by
    rw [emitsHeartbeat_loop]
    simp [hc, heartbeatDue, hdue]
  refine ⟨hem, ?_, ?_⟩
  · rw [heartbeat_filter_loop]
    simp [hc, heartbeatDue, hdue]
  · rw [loop_lastSend]
    simp [hem]

/-- Witness for the amended C9: connected, `lastSend = 0`, clock at 3001. -/
theorem heartbeat_firing_witness :
    emitsHeartbeat (loop { setup with deviceConnected := true } 3001 3002).2 = true ∧
    (loop { setup with deviceConnected := true } 3001 3002).1.lastSend = 3002 :=
  ⟨(heartbeat_firing { setup with deviceConnected := true } 3001 3002 rfl (by decide)).1,
   (heartbeat_firing { setup with deviceConnected := true } 3001 3002 rfl (by decide)).2.2⟩

/-! ## Frame of `lastSend` -/

/-- C10. A tick of `loop()` that emits no heartbeat leaves `lastSend`
unchanged, whichever edge branch it takes; a tick that emits one sets
`lastSend` to the reading of `millis()` at that moment (line 110); and
`onConnect`, `onDisconnect` and `onWrite` (also as delivered by the stack with a
new value) never change it. -/
theorem lastSend_frame (s : State) (t1 t2 : Nat) (payload : List Char) :
    (emitsHeartbeat (loop s t1 t2).2 = false → (loop s t1 t2).1.lastSend = s.lastSend) ∧
    (emitsHeartbeat (loop s t1 t2).2 = true → (loop s t1 t2).1.lastSend = millis t2) ∧
    (onConnect s).1.lastSend = s.lastSend ∧
    (onDisconnect s).1.lastSend = s.lastSend ∧
    (onWrite s).1.lastSend = s.lastSend ∧
    (step s (Event.write payload)).1.lastSend = s.lastSend := by
  refine ⟨fun h => ?_, fun h => ?_, rfl, rfl, ?_, ?_⟩
  · rw [loop_lastSend]; simp [h]
  · rw [loop_lastSend]; simp [h]
  · rw [onWrite_fst]
  · simp [step, onWrite_fst]

/-- Witness for C10: a tick that processes a reconnect 1 s after the last
heartbeat keeps the stale timestamp, and the heartbeat tick that follows
stores its own clock reading. -/
theorem lastSend_frame_witness :
    (loop (State.mk true false 5000 []) 6000 6000).1.lastSend = 5000 ∧
    (loop (State.mk true true 5000 []) 8001 8003).1.lastSend = millis 8003 :=
  ⟨(lastSend_frame (State.mk true false 5000 []) 6000 6000 []).1 (by decide),
   (lastSend_frame (State.mk true true 5000 []) 8001 8003 []).2.1 (by decide)⟩

/-! ## Writers of the connection flag -/

/-- C11. `onConnect` sets `deviceConnected` to true and `onDisconnect` sets it
to false, each leaving `oldDeviceConnected` as it was; `loop()` and `onWrite`
(also as delivered by the stack with a new value) leave `deviceConnected`
unchanged, in every state. -/
theorem deviceConnected_writers (s : State) (t1 t2 : Nat) (payload : List Char) :
    (onConnect s).1.deviceConnected = true ∧
    (onConnect s).1.oldDeviceConnected = s.oldDeviceConnected ∧
    (onDisconnect s).1.deviceConnected = false ∧
    (onDisconnect s).1.oldDeviceConnected = s.oldDeviceConnected ∧
    (loop s t1 t2).1.deviceConnected = s.deviceConnected ∧
    (onWrite s).1.deviceConnected = s.deviceConnected ∧
    (step s (Event.write payload)).1.deviceConnected = s.deviceConnected := by
  refine ⟨rfl, rfl, rfl, rfl, (loop_flags s t1 t2).1, ?_, ?_⟩
  · rw [onWrite_fst]
  · simp [step, onWrite_fst]

/-! ## Flag synchronisation -/

theorem step_flags_of_not_callback (s : State) (e : Event)
    (h : isConnectionCallback e = false) :
    (step s e).1.deviceConnected = s.deviceConnected ∧
    ((step s e).1.oldDeviceConnected =
      if isTick e then s.deviceConnected else s.oldDeviceConnected) := by
  cases e with
  | connect => simp [isConnectionCallback] at h
  | disconnect => simp [isConnectionCallback] at h
  | write payload => simp [step, onWrite_fst, isTick]
  | tick t1 t2 => simpa [step, isTick] using loop_flags s t1 t2

theorem run_flags_of_quiet (evs : List Event) :
    ∀ s : State, quiet evs = true →
      (run s evs).deviceConnected = s.deviceConnected ∧
      ((run s evs).oldDeviceConnected =
        if tickCount evs = 0 then s.oldDeviceConnected else s.deviceConnected) := by
  induction evs with
  | nil => intro s _; simp [run, tickCount]
  | cons e es ih =>
    intro s h
    simp only [quiet, List.all_cons, Bool.and_eq_true, Bool.not_eq_true'] at h
    obtain ⟨he, hes⟩ := h
    have hstep := step_flags_of_not_callback s e he
    have hrest := ih (step s e).1 (by simpa [quiet] using hes)
    simp only [run, hrest, hstep, tickCount, List.countP_cons]
    refine ⟨trivial, ?_⟩
    cases ht : isTick e <;> simp [tickCount]

/-- C14. For every starting state, after one execution of `loop()` the flag
`oldDeviceConnected` equals `deviceConnected`; and the two stay equal through
any further events that are not connection callbacks, so a state with the two
flags different can only be met when `onConnect` or `onDisconnect` has run
since the last tick. -/
theorem flags_synchronised (s : State) (t1 t2 : Nat) (es : List Event)
    (hq : quiet es = true) :
    (loop s t1 t2).1.oldDeviceConnected = (loop s t1 t2).1.deviceConnected ∧
    (run (loop s t1 t2).1 es).oldDeviceConnected =
      (run (loop s t1 t2).1 es).deviceConnected := by
  have hfl := loop_flags s t1 t2
  have hr := run_flags_of_quiet es (loop s t1 t2).1 hq
  refine ⟨by rw [hfl.1, hfl.2], ?_⟩
  rw [hr.1, hr.2, hfl.1, hfl.2]
  simp

/-- Witness for C14: a tick that meets the flags different (connected, edge not
yet processed), followed by a write and another tick. -/
theorem flags_synchronised_witness :
    (State.mk true false 0 []).oldDeviceConnected ≠ (State.mk true false 0 []).deviceConnected ∧
    (run (loop (State.mk true false 0 []) 100 100).1
      [Event.write ['P', 'I', 'N', 'G'], Event.tick 150 150]).oldDeviceConnected =
    (run (loop (State.mk true false 0 []) 100 100).1
      [Event.write ['P', 'I', 'N', 'G'], Event.tick 150 150]).deviceConnected :=
  ⟨by decide,
   (flags_synchronised (State.mk true false 0 []) 100 100
      [Event.write ['P', 'I', 'N', 'G'], Event.tick 150 150] (by decide)).2⟩

/-! ## Clock wrap-around -/

/-- C15. With `lastSend` the 32-bit reading recorded at clock `L` and the test
of line 105 made at clock `t`, no earlier than `L` and less than `2^32` ms
later, the unsigned difference `millis() - lastSend` is the true elapsed time
`t - L`, and the test `> 3000` on it decides as the test on the true elapsed
time does, wherever the counter wrapped in between. -/
theorem heartbeatDue_wraparound (s : State) (t L : Nat)
    (hrec : s.lastSend = millis L) (hle : L ≤ t) (hlt : t - L < ULONG) :
    usub (millis t) s.lastSend = t - L ∧
    (heartbeatDue s t = true ↔ t - L > 3000) := by
  have hsub : usub (millis t) s.lastSend = t - L := by
    rw [hrec]
    unfold usub millis ULONG
    unfold ULONG at hlt
    omega
  refine ⟨hsub, ?_⟩
  unfold heartbeatDue
  rw [hsub]
  simp

/-- Witness for C15: `lastSend` recorded 3000 ms before the counter wraps, the
test made 100 ms after the wrap: 3100 ms have passed and the heartbeat is
due. -/
theorem heartbeatDue_wraparound_witness :
    millis 4294967396 = 100 ∧
    usub (millis 4294967396) (State.mk true true 4294964296 []).lastSend = 3100 ∧
    heartbeatDue (State.mk true true 4294964296 []) 4294967396 = true :=
  ⟨by decide,
   (heartbeatDue_wraparound (State.mk true true 4294964296 []) 4294967396 4294964296
      (by decide) (by decide) (by decide)).1,
   (heartbeatDue_wraparound (State.mk true true 4294964296 []) 4294967396 4294964296
      (by decide) (by decide) (by decide)).2.2 (by decide)⟩

/-! ## Scenarios after `setup()` -/

theorem heartbeats_append (a b : List Event) :
    ∀ s : State, heartbeats s (a ++ b) = heartbeats s a ++ heartbeats (run s a) b := by
  induction a with
  | nil => intro s; simp [heartbeats, run]
  | cons e es ih => intro s; simp [heartbeats, run, ih]

theorem run_append (a b : List Event) :
    ∀ s : State, run s (a ++ b) = run (run s a) b := by
  induction a with
  | nil => intro s; simp [run]
  | cons e es ih => intro s; simp [run, ih]

theorem heartbeatOf_of_not_tick (s : State) (e : Event) (h : isTick e = false) :
    heartbeatOf s e = [] := by
  cases e with
  | connect => rfl
  | disconnect => rfl
  | write payload => rfl
  | tick t1 t2 => simp [isTick] at h

theorem heartbeats_of_disconnected (evs : List Event) :
    ∀ s : State, quiet evs = true → s.deviceConnected = false →
      heartbeats s evs = [] ∧ (run s evs).lastSend = s.lastSend := by
  induction evs with
  | nil => intro s _ _; exact ⟨rfl, rfl⟩
  | cons e es ih =>
    intro s h hd
    simp only [quiet, List.all_cons, Bool.and_eq_true, Bool.not_eq_true'] at h
    obtain ⟨he, hes⟩ := h
    have hstep := step_flags_of_not_callback s e he
    have hrest := ih (step s e).1 (by simpa [quiet] using hes) (by rw [hstep.1, hd])
    simp only [heartbeats, run, hrest, List.append_nil]
    cases e with
    | tick t1 t2 => simp [heartbeatOf, step, loop_lastSend, emitsHeartbeat_loop, hd]
    | connect => exact ⟨rfl, rfl⟩
    | disconnect => exact ⟨rfl, rfl⟩
    | write payload => simp [heartbeatOf, step, onWrite_fst]

theorem heartbeats_of_early (evs : List Event) :
    ∀ s : State, quiet evs = true → s.lastSend = 0 →
      (∀ x ∈ tickStarts evs, millis x ≤ 3000) →
      heartbeats s evs = [] ∧ (run s evs).lastSend = 0 := by
  induction evs with
  | nil => intro s _ hl _; exact ⟨rfl, hl⟩
  | cons e es ih =>
    intro s h hl hx
    simp only [quiet, List.all_cons, Bool.and_eq_true, Bool.not_eq_true'] at h
    obtain ⟨he, hes⟩ := h
    cases e with
    | connect => simp [isConnectionCallback] at he
    | disconnect => simp [isConnectionCallback] at he
    | write payload =>
      have hs : (step s (Event.write payload)).1.lastSend = 0 := by
        simp [step, onWrite_fst, hl]
      have := ih (step s (Event.write payload)).1 (by simpa [quiet] using hes) hs
        (by simpa [tickStarts] using hx)
      simpa [heartbeats, heartbeatOf, run] using this
    | tick t1 t2 =>
      simp only [tickStarts, List.mem_cons, forall_eq_or_imp] at hx
      obtain ⟨h1, hx⟩ := hx
      have hno : emitsHeartbeat (loop s t1 t2).2 = false := by
        rw [emitsHeartbeat_loop]
        have : heartbeatDue s t1 = false := by
          unfold heartbeatDue usub
          rw [hl]
          unfold millis ULONG at h1 ⊢
          simp only [decide_eq_false_iff_not, not_lt]
          omega
        simp [this]
      have hs : (step s (Event.tick t1 t2)).1.lastSend = 0 := by
        simp [step, loop_lastSend, hno, hl]
      have := ih (step s (Event.tick t1 t2)).1 (by simpa [quiet] using hes) hs hx
      simpa [heartbeats, heartbeatOf, run, hno, step] using this

theorem advertisingCalls_of_quiet (evs : List Event) :
    ∀ s : State, quiet evs = true →
      advertisingCalls (effects s evs) =
        if disconnectEdge s = true ∧ 0 < tickCount evs then 1 else 0 := by
  induction evs with
  | nil => intro s _; simp [effects, advertisingCalls, tickCount]
  | cons e es ih =>
    intro s h
    simp only [quiet, List.all_cons, Bool.and_eq_true, Bool.not_eq_true'] at h
    obtain ⟨he, hes⟩ := h
    have hstep := step_flags_of_not_callback s e he
    have hrest := ih (step s e).1 (by simpa [quiet] using hes)
    simp only [effects, advertisingCalls_append, hrest]
    cases e with
    | connect => simp [isConnectionCallback] at he
    | disconnect => simp [isConnectionCallback] at he
    | write payload =>
      have h0 := advertisingCalls_step_of_not_tick s (Event.write payload) rfl
      have hde : disconnectEdge (step s (Event.write payload)).1 = disconnectEdge s := by
        unfold disconnectEdge
        rw [hstep.1, hstep.2]
        simp [isTick]
      simp [h0, hde, tickCount, isTick]
    | tick t1 t2 =>
      have hde : disconnectEdge (step s (Event.tick t1 t2)).1 = false := by
        unfold disconnectEdge
        rw [hstep.1, hstep.2]
        simp [isTick]
      simp [step, advertisingCalls_loop, hde, tickCount, isTick] at hde ⊢

/-- C13, counterexample. After `setup()`, at an uptime of 5 s: (a) `onConnect`,
one tick 10 ms later and `onDisconnect` well within 1000 ms, then a further tick:
the tick between the two callbacks emits a heartbeat at once, because
`lastSend` is still 0; (b) `onConnect` and `onDisconnect` with no tick between
them, then two ticks: `loop()` never calls `startAdvertising`. -/
theorem scenarioB_counterexample :
    heartbeats setup [Event.tick 4960 4960, Event.connect, Event.tick 5010 5010,
      Event.disconnect, Event.tick 5060 5060] = [(5010, 5010)] ∧
    advertisingCalls (effects setup [Event.tick 4960 4960, Event.connect, Event.disconnect,
      Event.tick 5010 5010, Event.tick 5060 5060]) = 0 := by
  decide

/-- C13, amended. For every run from the state left by `setup()` in which
`onConnect` is followed by `onDisconnect`, with no other connection callback,
at least one tick of `loop()` between the two and at least one after the
`onDisconnect`, and in which every tick between the two reads `millis()` at
most 3000 on line 105 (the link is dropped within 3 s of boot), no heartbeat
is emitted and `loop()` calls `BLEDevice::startAdvertising()` exactly once. -/
theorem scenarioB_early (pre mid post : List Event)
    (hpre : quiet pre = true) (hmid : quiet mid = true) (hpost : quiet post = true)
    (hmidTick : 0 < tickCount mid) (hpostTick : 0 < tickCount post)
    (hearly : ∀ x ∈ tickStarts mid, millis x ≤ 3000) :
    heartbeats setup (pre ++ Event.connect :: (mid ++ Event.disconnect :: post)) = [] ∧
    advertisingCalls
      (effects setup (pre ++ Event.connect :: (mid ++ Event.disconnect :: post))) = 1 := by
  have hph := heartbeats_of_disconnected pre setup hpre rfl
  have hpa := advertisingCalls_of_quiet pre setup hpre
  have hm := run_flags_of_quiet mid (step (run setup pre) Event.connect).1 hmid
  have hmh := heartbeats_of_early mid (step (run setup pre) Event.connect).1 hmid
    (by simpa [step, onConnect, setup] using hph.2) hearly
  have hma := advertisingCalls_of_quiet mid (step (run setup pre) Event.connect).1 hmid
  have hmo : (run (step (run setup pre) Event.connect).1 mid).oldDeviceConnected = true := by
    rw [hm.2, if_neg (by omega)]; rfl
  have hqh := heartbeats_of_disconnected post
    (step (run (step (run setup pre) Event.connect).1 mid) Event.disconnect).1 hpost rfl
  have hqa := advertisingCalls_of_quiet post
    (step (run (step (run setup pre) Event.connect).1 mid) Event.disconnect).1 hpost
  have hde1 : disconnectEdge setup = false := rfl
  have hde2 : disconnectEdge (step (run setup pre) Event.connect).1 = false := rfl
  have hde3 : disconnectEdge
      (step (run (step (run setup pre) Event.connect).1 mid) Event.disconnect).1 = true := by
    show (!false && (run (step (run setup pre) Event.connect).1 mid).oldDeviceConnected) = true
    rw [hmo]
    rfl
  constructor
  · rw [heartbeats_append, hph.1, List.nil_append, heartbeats, heartbeats_append, hmh.1,
      heartbeats, hqh.1]
    rfl
  · rw [effects_append, advertisingCalls_append, hpa, effects, advertisingCalls_append,
      advertisingCalls_step_of_not_tick _ Event.connect rfl, effects_append,
      advertisingCalls_append, hma, effects, advertisingCalls_append,
      advertisingCalls_step_of_not_tick _ Event.disconnect rfl, hqa]
    simp [hde1, hde2, hde3, hpostTick]

/-- Witness for the amended C13: boot, one idle tick, `onConnect` at about
1.2 s, two ticks, a write, `onDisconnect` 130 ms after the connect, two more
ticks. -/
theorem scenarioB_early_witness :
    heartbeats setup ([Event.tick 1150 1150] ++ Event.connect ::
      ([Event.tick 1200 1200, Event.write ['P', 'I', 'N', 'G'], Event.tick 1250 1250] ++
        Event.disconnect :: [Event.tick 1300 1300, Event.tick 1850 1850])) = [] ∧
    advertisingCalls (effects setup ([Event.tick 1150 1150] ++ Event.connect ::
      ([Event.tick 1200 1200, Event.write ['P', 'I', 'N', 'G'], Event.tick 1250 1250] ++
        Event.disconnect :: [Event.tick 1300 1300, Event.tick 1850 1850]))) = 1 :=
  scenarioB_early [Event.tick 1150 1150]
    [Event.tick 1200 1200, Event.write ['P', 'I', 'N', 'G'], Event.tick 1250 1250]
    [Event.tick 1300 1300, Event.tick 1850 1850]
    (by decide) (by decide) (by decide) (by decide) (by decide) (by decide)

theorem quiet_of_ticksEvery50 (evs : List Event) :
    ∀ t : Nat, ticksEvery50 t evs = true → quiet evs = true := by
  induction evs with
  | nil => intro t _; rfl
  | cons e es ih =>
    intro t h
    cases e with
    | connect => simp [ticksEvery50] at h
    | disconnect => simp [ticksEvery50] at h
    | write payload =>
      simp only [ticksEvery50] at h
      simpa [quiet, isConnectionCallback] using ih t h
    | tick t1 t2 =>
      simp only [ticksEvery50, Bool.and_eq_true] at h
      simpa [quiet, isConnectionCallback] using ih (t + 50) h.2

theorem readings_of_ticksEvery50 (evs : List Event) :
    ∀ t : Nat, ticksEvery50 t evs = true →
      (∀ x ∈ readings evs, ∃ j, x = t + 50 * j) ∧ (readings evs).Pairwise (· ≤ ·) := by
  induction evs with
  | nil => intro t _; simp [readings]
  | cons e es ih =>
    intro t h
    cases e with
    | connect => simp [ticksEvery50] at h
    | disconnect => simp [ticksEvery50] at h
    | write payload =>
      simp only [ticksEvery50] at h
      simpa [readings, clockOf] using ih t h
    | tick t1 t2 =>
      simp only [ticksEvery50, Bool.and_eq_true, decide_eq_true_eq] at h
      obtain ⟨⟨h1, h2⟩, hes⟩ := h
      subst h2 h1
      obtain ⟨hgrid, hpw⟩ := ih (t1 + 50) hes
      have hge : ∀ x ∈ readings es, t1 ≤ x := by
        intro x hx
        obtain ⟨j, hj⟩ := hgrid x hx
        omega
      refine ⟨?_, ?_⟩
      · intro x hx
        simp only [readings, clockOf, List.cons_append, List.nil_append, List.mem_cons] at hx
        rcases hx with hx | hx | hx
        · exact ⟨0, by omega⟩
        · exact ⟨0, by omega⟩
        · obtain ⟨j, hj⟩ := hgrid x hx
          exact ⟨j + 1, by omega⟩
      · simp only [readings, clockOf, List.cons_append, List.nil_append, List.pairwise_cons,
          List.mem_cons, forall_eq_or_imp]
        exact ⟨⟨le_refl _, hge⟩, hge, hpw⟩

theorem heartbeat_mem_readings (evs : List Event) :
    ∀ (s : State) (w : Nat × Nat), w ∈ heartbeats s evs → w.1 ∈ readings evs := by
  induction evs with
  | nil => intro s w hw; simp [heartbeats] at hw
  | cons e es ih =>
    intro s w hw
    simp only [heartbeats, List.mem_append] at hw
    simp only [readings, List.mem_append]
    rcases hw with hw | hw
    · left
      cases e with
      | tick t1 t2 =>
        simp only [heartbeatOf] at hw
        split at hw
        · simp only [List.mem_singleton] at hw
          simp [clockOf, hw]
        · simp at hw
      | connect => simp [heartbeatOf] at hw
      | disconnect => simp [heartbeatOf] at hw
      | write payload => simp [heartbeatOf] at hw
    · exact Or.inr (ih _ w hw)

theorem heartbeatDue_of_boot (s : State) (t : Nat) (hl : s.lastSend = 0) (ht : t ≤ 3050) :
    heartbeatDue s t = decide (3000 < t) := by
  have h : usub (millis t) s.lastSend = t := by
    rw [hl]
    unfold usub millis ULONG
    omega
  unfold heartbeatDue
  rw [h]

theorem one_heartbeat_from_boot (evs : List Event) :
    ∀ (s : State) (t T B : Nat), s.deviceConnected = true → s.lastSend = 0 →
      ticksEvery50 t evs = true → t ≤ 3050 → T < t → 3050 ≤ B →
      (t ≤ 3000 → B < t + 3100) → (3000 < t → B < t + 3050) →
      B < t + 50 * tickCount evs →
      heartbeatsBetween T B (heartbeats s evs) = 1 := by
  induction evs with
  | nil =>
    intro s t T B _ _ _ ht _ hB _ _ hcov
    simp [tickCount] at hcov
    omega
  | cons e es ih =>
    intro s t T B hd hl h ht hT hB hlo hhi hcov
    cases e with
    | connect => simp [ticksEvery50] at h
    | disconnect => simp [ticksEvery50] at h
    | write payload =>
      simp only [ticksEvery50] at h
      have hs := step_flags_of_not_callback s (Event.write payload) rfl
      have hls := step_lastSend_of_not_tick s (Event.write payload) rfl
      have := ih (step s (Event.write payload)).1 t T B (by rw [hs.1, hd]) (by rw [hls, hl]) h
        ht hT hB hlo hhi (by simpa [tickCount, isTick] using hcov)
      simpa [heartbeats, heartbeatOf] using this
    | tick t1 t2 =>
      simp only [ticksEvery50, Bool.and_eq_true, decide_eq_true_eq] at h
      obtain ⟨⟨h1, h2⟩, hes⟩ := h
      subst h2 h1
      have hcov2 : B < t1 + 50 + 50 * tickCount es := by
        simp only [tickCount, List.countP_cons, isTick, if_true] at hcov
        simp only [tickCount]
        omega
      have hdev : (loop s t1 t1).1.deviceConnected = true := by
        rw [(loop_flags s t1 t1).1, hd]
      have hem : emitsHeartbeat (loop s t1 t1).2 = decide (3000 < t1) := by
        rw [emitsHeartbeat_loop, hd, heartbeatDue_of_boot s t1 hl ht]
        rfl
      by_cases hfire : 3000 < t1
      · have hem1 : emitsHeartbeat (loop s t1 t1).2 = true := by simp [hem, hfire]
        have hls : (loop s t1 t1).1.lastSend = millis t1 := by
          rw [loop_lastSend]; simp [hem1]
        obtain ⟨hgrid, hpw⟩ := readings_of_ticksEvery50 es (t1 + 50) hes
        have hge : ∀ x ∈ readings es, t1 ≤ x := by
          intro x hx
          obtain ⟨j, hj⟩ := hgrid x hx
          omega
        have hlate : ∀ w ∈ heartbeats (loop s t1 t1).1 es, ¬ (T < w.1 ∧ w.1 ≤ B) := by
          intro w hw hin
          have h3 := heartbeats_after es _ t1 hls hge hpw w hw
          obtain ⟨j, hj⟩ := hgrid w.1 (heartbeat_mem_readings es _ w hw)
          have := hhi hfire
          omega
        have hzero : heartbeatsBetween T B (heartbeats (loop s t1 t1).1 es) = 0 := by
          unfold heartbeatsBetween
          rw [List.countP_eq_zero]
          intro w hw
          simpa using hlate w hw
        unfold heartbeatsBetween at hzero ⊢
        simp only [heartbeats, heartbeatOf, step, hem1, if_true, List.singleton_append,
          List.countP_cons, hzero]
        simp
        omega
      · have hem0 : emitsHeartbeat (loop s t1 t1).2 = false := by simp [hem, hfire]
        have hls : (loop s t1 t1).1.lastSend = 0 := by
          rw [loop_lastSend]; simp [hem0, hl]
        have := ih (loop s t1 t1).1 (t1 + 50) T B hdev hls hes (by omega) (by omega) hB
          (by intro _; have := hlo (by omega); omega)
          (by intro _; have := hlo (by omega); omega) hcov2
        simpa [heartbeats, heartbeatOf, step, hem0] using this

theorem notify_of_loop (s : State) (t1 t2 : Nat) (v : List Char)
    (h : Effect.notify v ∈ (loop s t1 t2).2) : v = msg := by
  have hm : c_str msg = msg := by decide
  have hf : Effect.notify v ∈ (loop s t1 t2).2.filter isHeartbeat :=
    List.mem_filter.mpr ⟨h, rfl⟩
  rw [heartbeat_filter_loop] at hf
  split at hf
  · simpa using hf
  · simp at hf

theorem notify_of_effects (evs : List Event) :
    ∀ (s : State) (v : List Char), Effect.notify v ∈ effects s evs → v = msg := by
  induction evs with
  | nil => intro s v h; simp [effects] at h
  | cons e es ih =>
    intro s v h
    simp only [effects, List.mem_append] at h
    rcases h with h | h
    · cases e with
      | connect => simp [step, onConnect] at h
      | disconnect => simp [step, onDisconnect] at h
      | write payload =>
        simp only [step, onWrite] at h
        split at h <;> simp at h
      | tick t1 t2 => exact notify_of_loop s t1 t2 v h
    · exact ih _ v h

/-- C12, counterexample. After `setup()`, `loop()` ticks every 50 ms (here at
4910, 4960, 5010, ...) and `onConnect` fires at clock 5000.  The first tick
after it, at 5010, emits a heartbeat at once, because `lastSend` is still 0 and
5010 > 3000; the tick at 8060 emits the next.  Both lie in the 3100 ms after
the connect, which end at 8100: two heartbeats, not one. -/
theorem scenarioA_counterexample :
    ticksEvery50 4910 (ticksFrom 4910 2) = true ∧
    ticksEvery50 5010 (ticksFrom 5010 63) = true ∧
    heartbeats setup (ticksFrom 4910 2 ++ Event.connect :: ticksFrom 5010 63) =
      [(5010, 5010), (8060, 8060)] ∧
    heartbeatsBetween 5000 (5000 + 3100)
      (heartbeats setup (ticksFrom 4910 2 ++ Event.connect :: ticksFrom 5010 63)) = 2 := by
  decide

/-- C12, amended. For every run from the state left by `setup()` in which
`loop()` ticks every 50 ms, `onConnect` fires at clock `T` between two ticks,
no disconnect follows, the ticks cover the 3100 ms after `T`, and the first
tick after the connect runs no later than 3000 ms after boot, exactly one
heartbeat is emitted by the ticks later than `T` and no later than `T + 3100`;
and every value notified in the run is `Hello from NeoXalle Master`. -/
theorem scenarioA_early (pre post : List Event) (a T : Nat)
    (hpre : ticksEvery50 a pre = true)
    (hpost : ticksEvery50 (a + 50 * tickCount pre) post = true)
    (hT : T < a + 50 * tickCount pre)
    (hcover : T + 3100 < a + 50 * (tickCount pre + tickCount post))
    (hearly : a + 50 * tickCount pre ≤ 3000) :
    heartbeatsBetween T (T + 3100)
      (heartbeats setup (pre ++ Event.connect :: post)) = 1 ∧
    ∀ v, Effect.notify v ∈ effects setup (pre ++ Event.connect :: post) →
      v = "Hello from NeoXalle Master".toList := by
  refine ⟨?_, fun v hv => notify_of_effects _ setup v hv⟩
  have hq := quiet_of_ticksEvery50 pre a hpre
  have hph := heartbeats_of_disconnected pre setup hq rfl
  have hls : (step (run setup pre) Event.connect).1.lastSend = 0 := by
    show (run setup pre).lastSend = 0
    rw [hph.2]
    rfl
  have hmain := one_heartbeat_from_boot post (step (run setup pre) Event.connect).1
    (a + 50 * tickCount pre) T (T + 3100) rfl hls hpost (by omega) hT (by omega)
    (by intro _; omega) (by intro h; omega) (by omega)
  rw [heartbeats_append, hph.1, List.nil_append, heartbeats]
  exact hmain

/-- Witness for the amended C12: ticks every 50 ms from 1010 on, `onConnect` at
clock 1100 between the ticks at 1060 and 1110, and ticks up to 4210; the one
heartbeat is the tick at 3010. -/
theorem scenarioA_early_witness :
    heartbeats setup (ticksFrom 1010 2 ++ Event.connect :: ticksFrom 1110 63) =
      [(3010, 3010)] ∧
    heartbeatsBetween 1100 (1100 + 3100)
      (heartbeats setup (ticksFrom 1010 2 ++ Event.connect :: ticksFrom 1110 63)) = 1 :=
  ⟨by decide,
   (scenarioA_early (ticksFrom 1010 2) (ticksFrom 1110 63) 1010 1100
      (by decide) (by decide) (by decide) (by decide) (by decide)).1⟩

end NeoXalle
